import Mathlib

/-!
Verification of the job-orchestration core of `es-on-market-tool`.

Shallow embedding of the retry/circuit-breaker layer
(`src/lib/scraper/core/retry-handler.ts`), the sliding-window rate limiter
(`src/lib/scraper/utils/rate-limiter.ts`), the data processor
(`src/lib/scraper/core/browser-manager.ts`, class `DataProcessor`), the
database job queue (`src/lib/auth/middleware.ts`, class `DatabaseJobQueue`)
and the webhook engine (`src/lib/webhooks/webhook-manager.ts`).

Conventions: JavaScript numbers that stay integral are `Nat`; delays that
mix fractions (jitter) are `ℚ`; `Math.random()` draws are explicit `ℚ`
parameters in `[0,1)`; a JS `string` is a Lean `String` and the modelled
strings are ASCII, so `toLowerCase`/`toUpperCase` are `Char.toLower`/
`Char.toUpper` maps; `undefined`-able values are `Option`; JS truthiness of
an optional string ("" and `undefined` are falsy) is `jsTruthy`.
-/

namespace ESMarket

/-- ASCII model of JavaScript `String.prototype.toLowerCase`. -/
def lowerStr (s : String) : String := ⟨s.data.map Char.toLower⟩

/-- Model of JavaScript `String.prototype.includes`: `pat` occurs as a
contiguous substring of `s`. -/
def containsStr (s pat : String) : Bool :=
  s.data.tails.any (fun t => pat.data.isPrefixOf t)

/-- JS truthiness of an optional string: `undefined` and `""` are falsy. -/
def jsTruthy : Option String → Bool
  | none => false
  | some s => s ≠ ""

/-! ## RetryHandler (`src/lib/scraper/core/retry-handler.ts`) -/

/-- `enum ErrorType` of retry-handler.ts.  The constructor `rate_limited`
carries the source's name `RATE_LIMITED = 'rate_limited'`. -/
inductive ErrorType where
  | network
  | timeout
  | captcha
  | blocked
  | rate_limited
  | parsing
  | unknown
deriving DecidableEq, Repr

/-- `RetryHandler.classifyError`, line for line: the checks run in source
order on the lowercased message (the lowercased `stack` is computed by the
source but never read, so it is omitted). -/
def classifyError (message : String) : ErrorType :=
  let m := lowerStr message
  if containsStr m "timeout" || containsStr m "timed out" then .timeout
  else if containsStr m "network" || containsStr m "connection" ||
          containsStr m "net::err" then .network
  else if containsStr m "captcha" || containsStr m "recaptcha" then .captcha
  else if containsStr m "blocked" || containsStr m "access denied" ||
          containsStr m "403" || containsStr m "rate limit" then .blocked
  else if containsStr m "rate limit" || containsStr m "too many requests" ||
          containsStr m "429" then .rate_limited
  else if containsStr m "parse" || containsStr m "extract" ||
          containsStr m "selector" then .parsing
  else .unknown

/-- The `retryableErrors` list of `RetryHandler.defaultConfig`. -/
def defaultRetryableErrors : List String :=
  ["net::ERR_NETWORK_CHANGED", "net::ERR_CONNECTION_RESET",
   "net::ERR_CONNECTION_REFUSED", "net::ERR_TIMED_OUT",
   "TimeoutError", "ProtocolError"]

/-- `RetryHandler.isRetryableError`: a configured pattern match (against the
original, un-lowercased message) wins; otherwise the switch on the class. -/
def isRetryableError (message : String) (retryableErrors : List String)
    (errorType : ErrorType) : Bool :=
  if retryableErrors.any (fun pattern => containsStr message pattern) then
    true
  else
    match errorType with
    | .network | .timeout | .rate_limited => true
    | .captcha | .blocked => false
    | .parsing => false
    | .unknown => true

/-- `RetryHandler.calculateDelay` over ℚ: `jitterRand` stands for the
`Math.random()` draw in `[0,1)`. -/
def calculateDelay (attempt : Nat) (baseDelay backoffMultiplier maxDelay : ℚ)
    (jitterRand : ℚ) : ℚ :=
  let exponentialDelay := baseDelay * backoffMultiplier ^ attempt
  let jitter := jitterRand * (1 / 10) * exponentialDelay
  let totalDelay := exponentialDelay + jitter
  min totalDelay maxDelay

/-- The fields of `RetryConfig` the control flow reads (the two callbacks are
observers and are dropped). -/
structure RetryConfigM where
  maxRetries : Nat
  baseDelay : ℚ
  maxDelay : ℚ
  backoffMultiplier : ℚ
  retryableErrors : List String
deriving Repr

/-- `RetryResult<T>` without `totalTime` (wall-clock time is not modelled). -/
structure RetryResultM (α : Type) where
  success : Bool
  data : Option α
  error : Option String
  attempts : Nat
deriving Repr, DecidableEq

/-- The attempt loop of `RetryHandler.executeWithRetry`.  `op attempt`
is the `operation()` call during the given (1-based) attempt: `.ok` a result,
`.error` a thrown message.  `rand attempt` is that attempt's `Math.random()`.
The second component collects the delays slept before each retry, in order.
`fuel` only bounds the structural recursion; `executeWithRetry` passes
`maxRetries + 1`, and the loop breaks at `attempt = maxRetries + 1`, so the
`fuel = 0` branch is never reached from there. -/
def retryGo {α : Type} (op : Nat → Except String α) (cfg : RetryConfigM)
    (rand : Nat → ℚ) : Nat → Nat → List ℚ → RetryResultM α × List ℚ
  | 0, _, acc =>
      (⟨false, none, none, cfg.maxRetries + 1⟩, acc.reverse)
  | fuel + 1, attempt, acc =>
      match op attempt with
      | .ok v => (⟨true, some v, none, attempt⟩, acc.reverse)
      | .error e =>
        if cfg.maxRetries < attempt then
          (⟨false, none, some e, cfg.maxRetries + 1⟩, acc.reverse)
        else
          let errorType := classifyError e
          if isRetryableError e cfg.retryableErrors errorType then
            retryGo op cfg rand fuel (attempt + 1)
              (calculateDelay (attempt - 1) cfg.baseDelay cfg.backoffMultiplier
                cfg.maxDelay (rand attempt) :: acc)
          else
            (⟨false, none, some e, cfg.maxRetries + 1⟩, acc.reverse)

/-- `RetryHandler.executeWithRetry`: run the loop from attempt 1. -/
def executeWithRetry {α : Type} (op : Nat → Except String α)
    (cfg : RetryConfigM) (rand : Nat → ℚ) : RetryResultM α × List ℚ :=
  retryGo op cfg rand (cfg.maxRetries + 1) 1 []

/-! ## Circuit breaker (`RetryHandler.createCircuitBreaker`) -/

/-- The closure's `state` variable: `'closed' | 'open' | 'half-open'`
(`opened` stands for the source string `'open'`, a Lean keyword). -/
inductive CBStatus where
  | closed
  | opened
  | halfOpen
deriving DecidableEq, Repr

/-- The closure's captured mutable variables. -/
structure CBState where
  failures : Nat
  lastFailureTime : Nat
  status : CBStatus
deriving DecidableEq, Repr

/-- Outcome of one `execute` call: rejected without invoking the operation,
or the operation's own success/failure (rethrown). -/
inductive CBResult where
  | rejected
  | succeeded
  | failed
deriving DecidableEq, Repr

/-- One `execute(operation)` call at time `now`; `opSucceeds` is whether the
wrapped operation would succeed (it is only consulted when the call is not
rejected).  Mirrors the source: reset open→half-open when the timeout has
elapsed, reject while open, on success close from half-open, on failure
bump the counter and open at the threshold. -/
def cbExecute (maxFailures resetTimeout : Nat) (s : CBState) (now : Nat)
    (opSucceeds : Bool) : CBState × CBResult :=
  let s1 := if s.status = .opened ∧ resetTimeout < now - s.lastFailureTime
    then { s with status := .halfOpen, failures := 0 } else s
  if s1.status = .opened then
    (s1, .rejected)
  else if opSucceeds then
    (if s1.status = .halfOpen then { s1 with status := .closed, failures := 0 }
     else s1, .succeeded)
  else
    let f := s1.failures + 1
    let st := if maxFailures ≤ f then CBStatus.opened else s1.status
    ({ s1 with failures := f, lastFailureTime := now, status := st }, .failed)

/-- Fold a sequence of `(now, opSucceeds)` calls through the breaker. -/
def cbRun (maxFailures resetTimeout : Nat) (s : CBState)
    (events : List (Nat × Bool)) : CBState :=
  events.foldl (fun st ev => (cbExecute maxFailures resetTimeout st ev.1 ev.2).1) s

/-! ## Rate limiter (`src/lib/scraper/utils/rate-limiter.ts`) -/

/-- One `RateLimiter.wait()` call at time `now` over the stored `requests`
timestamps: filter the trailing window, sleep until the oldest kept
timestamp leaves the window when the window is full, then push `now`
(the timestamp captured before the sleep, exactly as the source does).
Returns the new `requests` array and the time at which the call returns.
`List.min?` models `Math.min(...this.requests)`; when the filtered list is
empty (possible only for `maxRequests = 0`) `Math.min()` is `Infinity`, the
wait time is negative and no sleep happens, which the `none` branch mirrors. -/
def rlWait (maxRequests windowMs : Nat) (requests : List Nat) (now : Nat) :
    List Nat × Nat :=
  let reqs := requests.filter (fun t => now - t < windowMs)
  if maxRequests ≤ reqs.length then
    match reqs.min? with
    | none => (reqs ++ [now], now)
    | some oldest =>
      let waitTime := windowMs - (now - oldest)
      (reqs ++ [now], if 0 < waitTime then now + waitTime else now)
  else
    (reqs ++ [now], now)

/-- Timestamps of `l` inside the trailing window of length `w` ending at `now`. -/
def inWindow (w now : Nat) (l : List Nat) : List Nat :=
  l.filter (fun t => now - t < w)

/-! ## Database job queue (`src/lib/auth/middleware.ts`, `DatabaseJobQueue`) -/

/-- `priority: 'LOW' | 'NORMAL' | 'HIGH'` of the job records. -/
inductive JobPriority where
  | LOW
  | NORMAL
  | HIGH
deriving DecidableEq, Repr

/-- `scrapeJob.status` values. -/
inductive JobStatus where
  | PENDING
  | PROCESSING
  | COMPLETED
  | FAILED
  | CANCELLED
deriving DecidableEq, Repr

/-- Modelled from the spec: `processQueue` orders by `{ priority: 'desc' }`,
whose meaning is fixed by the Prisma enum declaration order in the schema
file, which is not in the repository; the spec states the order is
HIGH > NORMAL > LOW ("ordered by priority descending", "HIGH > NORMAL > LOW"). -/
def priorityRank : JobPriority → Nat
  | .LOW => 0
  | .NORMAL => 1
  | .HIGH => 2

/-- The columns of a `scrapeJob` row that the queue logic reads or writes. -/
structure ScrapeJob where
  id : Nat
  priority : JobPriority
  status : JobStatus
  createdAt : Nat
  startedAt : Option Nat
  updatedAt : Nat
  error : Option String
deriving DecidableEq, Repr

/-- The queue's state: the job table plus the in-memory fields of
`DatabaseJobQueue` (`currentJobs` as a list of ids, `maxConcurrentJobs`).
The `processing` re-entrancy flag only serializes the poll and is identity
in this sequential model. -/
structure QueueState where
  jobs : List ScrapeJob
  currentJobs : List Nat
  maxConcurrentJobs : Nat
deriving DecidableEq, Repr

/-- `a` sorts strictly before `b` under
`orderBy: [{ priority: 'desc' }, { createdAt: 'asc' }]`. -/
def jobBefore (a b : ScrapeJob) : Bool :=
  priorityRank b.priority < priorityRank a.priority ||
    (priorityRank a.priority = priorityRank b.priority &&
      a.createdAt < b.createdAt)

/-- `prisma.scrapeJob.findFirst({where: {status: 'PENDING'}, orderBy: ...})`:
the best PENDING row; on full ties the row stored first (row order stands in
for the unspecified residual database order). -/
def findNextPending (jobs : List ScrapeJob) : Option ScrapeJob :=
  (jobs.filter (fun j => j.status = .PENDING)).foldl
    (fun best j =>
      match best with
      | none => some j
      | some b => if jobBefore j b then some j else some b)
    none

/-- One `processQueue()` poll at time `now`: gate on
`currentJobs.size >= maxConcurrentJobs`, pick the best PENDING job, mark it
PROCESSING (setting `startedAt`/`updatedAt`) and add it to `currentJobs`.
Returns the id it dispatched, if any. -/
def processQueue (s : QueueState) (now : Nat) : QueueState × Option Nat :=
  if s.maxConcurrentJobs ≤ s.currentJobs.length then (s, none)
  else
    match findNextPending s.jobs with
    | none => (s, none)
    | some j =>
      let jobs := s.jobs.map (fun x =>
        if x.id = j.id then
          { x with status := .PROCESSING, startedAt := some now, updatedAt := now }
        else x)
      ({ s with jobs := jobs, currentJobs := j.id :: s.currentJobs }, some j.id)

/-- `completeJob`: set the final status, stamp `updatedAt`, and delete the id
from `currentJobs` (progress/listing counters are not modelled). -/
def completeJob (s : QueueState) (id : Nat) (success : Bool) (now : Nat) :
    QueueState :=
  let st := if success then JobStatus.COMPLETED else JobStatus.FAILED
  { s with
    jobs := s.jobs.map (fun x =>
      if x.id = id then { x with status := st, updatedAt := now } else x),
    currentJobs := s.currentJobs.filter (fun i => i ≠ id) }

/-- The 10-minute stall threshold of `cleanup()` in milliseconds. -/
def stallMs : Nat := 10 * 60 * 1000

/-- The `where` filter of `cleanup()`: PROCESSING and `startedAt` strictly
before the stalled threshold `now - stallMs` (a NULL `startedAt` does not
match Prisma's `lt` filter, hence the `none` branch). -/
def isStalled (now : Nat) (j : ScrapeJob) : Bool :=
  j.status == .PROCESSING &&
    match j.startedAt with
    | some t => decide (t < now - stallMs)
    | none => false

/-- `cleanup()` at time `now`: every stalled PROCESSING job becomes FAILED
with the timeout error.  Faithful to the source, `currentJobs` is left
untouched. -/
def cleanup (s : QueueState) (now : Nat) : QueueState :=
  { s with
    jobs := s.jobs.map (fun j =>
      if isStalled now j then
        { j with
            status := JobStatus.FAILED,
            error := some "Job timed out (stalled for more than 10 minutes)",
            updatedAt := now }
      else j) }

/-- Jobs of `l` currently in PROCESSING. -/
def processingCount (l : List ScrapeJob) : Nat :=
  (l.filter (fun j => j.status = .PROCESSING)).length

/-! ## Data processor (`src/lib/scraper/core/browser-manager.ts`,
class `DataProcessor`)

The raw record and canonical entity are modelled on the fields that feed the
dedup check, the hard validation errors, and the modelled soft warnings.
The omitted raw fields (`listedDate`, `established`, `employees`,
`features`, `images`) and entity fields (`state`, `city`, `listedDate`,
`sellerFinancing`, `employees`, `established`, `features`, `imageUrls`,
contact/broker fields, `listingUrl`, `reasonForSelling`) only add optional
entity data or further soft warnings; none of them can produce a validation
error, reach the seen-set, or change the `duplicates`/`successful` counters,
which is all the theorems below speak about. -/

/-- JS regex `\w`: ASCII letters, digits and underscore. -/
def isWordChar (c : Char) : Bool := c.isAlphanum || c = '_'

/-- JS `String.prototype.trim`: drop whitespace from both ends. -/
def trimStr (s : String) : String :=
  ⟨((s.data.dropWhile Char.isWhitespace).reverse.dropWhile Char.isWhitespace).reverse⟩

/-- JS `replace(/\s+/g, ' ')`: each maximal whitespace run becomes one
space.  `prevWs` records whether the previous character was whitespace. -/
def collapseWsAux : List Char → Bool → List Char
  | [], _ => []
  | c :: cs, prevWs =>
    if c.isWhitespace then
      if prevWs then collapseWsAux cs true else ' ' :: collapseWsAux cs true
    else c :: collapseWsAux cs false

/-- `DataProcessor.cleanTitle`: trim, collapse whitespace, strip leading and
trailing non-word characters, cap at 200 characters. -/
def cleanTitle (title : String) : String :=
  let t := collapseWsAux (trimStr title).data false
  let t := t.dropWhile (fun c => !isWordChar c)
  let t := (t.reverse.dropWhile (fun c => !isWordChar c)).reverse
  ⟨t.take 200⟩

/-- `DataProcessor.cleanListingId`: `id.replace(/[^\w-]/g, '').toUpperCase()`. -/
def cleanListingId (id : String) : String :=
  ⟨(id.data.filter (fun c => isWordChar c || c = '-')).map Char.toUpper⟩

/-- Decimal value of a digit list (JS digits-only parse). -/
def digitsVal (l : List Char) : Nat :=
  l.foldl (fun n c => 10 * n + (c.toNat - 48)) 0

/-- JS `parseFloat` restricted to inputs of digits and dots (all that
`parsePrice` can pass it): longest `digits [. digits]` prefix, `NaN`
(`none`) when no digit is read before the parse stops. -/
def parseFloatDigitsDots (l : List Char) : Option ℚ :=
  let intPart := l.takeWhile Char.isDigit
  let rest := l.drop intPart.length
  match rest with
  | '.' :: rest2 =>
    let fracPart := rest2.takeWhile Char.isDigit
    if intPart = [] ∧ fracPart = [] then none
    else some ((digitsVal intPart : ℚ) + (digitsVal fracPart : ℚ) / 10 ^ fracPart.length)
  | _ => if intPart = [] then none else some (digitsVal intPart)

/-- `DataProcessor.parsePrice`: strip everything but digits and dots, then
`parseFloat`; `NaN` becomes `undefined`. -/
def parsePrice (priceStr : String) : Option ℚ :=
  parseFloatDigitsDots (priceStr.data.filter (fun c => c.isDigit || c = '.'))

/-- The `industryMap` of `DataProcessor.cleanIndustry`. -/
def industryMap : List (String × String) :=
  [("restaurant", "restaurants"), ("restaurants", "restaurants"),
   ("food-service", "restaurants"), ("automotive", "automotive"),
   ("auto", "automotive"), ("retail", "retail"),
   ("healthcare", "healthcare-medical"), ("medical", "healthcare-medical"),
   ("technology", "internet-technology"), ("tech", "internet-technology"),
   ("it", "internet-technology"), ("construction", "construction"),
   ("manufacturing", "manufacturing"), ("real-estate", "real-estate"),
   ("realty", "real-estate"), ("business-services", "business-services"),
   ("services", "business-services")]

/-- `DataProcessor.cleanIndustry`: trim, lowercase, drop characters outside
`[\w\s-]`, turn each whitespace run into one dash, then map through
`industryMap` with the cleaned string as fallback. -/
def cleanIndustry (industry : String) : String :=
  let l := (lowerStr (trimStr industry)).data.filter
    (fun c => isWordChar c || c.isWhitespace || c = '-')
  let s : String := ⟨(collapseWsAux l false).map (fun c => if c = ' ' then '-' else c)⟩
  (industryMap.lookup s).getD s

/-- `DataProcessor.cleanDescription`: trim, collapse whitespace (after which
the source's second `replace(/\n+/g, ' ')` finds no newline), cap at 2000. -/
def cleanDescription (description : String) : String :=
  ⟨(collapseWsAux (trimStr description).data false).take 2000⟩

/-- Match a literal at the head of `t`, returning the remainder. -/
def matchLit (lit : String) (t : List Char) : Option (List Char) :=
  if lit.data.isPrefixOf t then some (t.drop lit.data.length) else none

/-- The first id pattern: literal "/business/", then captured digits, then
a dash, anchored at the head of `t`. -/
def matchBusinessDash (t : List Char) : Option String :=
  match matchLit "/business/" t with
  | none => none
  | some r =>
    let ds := r.takeWhile Char.isDigit
    if ds ≠ [] ∧ (r.drop ds.length).head? = some '-' then some ⟨ds⟩ else none

/-- The second id pattern: literal "/listing/", then captured digits,
anchored at the head of `t`. -/
def matchListingId (t : List Char) : Option String :=
  match matchLit "/listing/" t with
  | none => none
  | some r =>
    let ds := r.takeWhile Char.isDigit
    if ds ≠ [] then some ⟨ds⟩ else none

/-- The third id pattern: a slash, captured digits, then literal
"/business", anchored at the head of `t`. -/
def matchDigitsBusiness (t : List Char) : Option String :=
  match matchLit "/" t with
  | none => none
  | some r =>
    let ds := r.takeWhile Char.isDigit
    if ds ≠ [] ∧ (matchLit "/business" (r.drop ds.length)).isSome then some ⟨ds⟩
    else none

/-- The fourth id pattern: literal "id=", then captured digits, anchored at
the head of `t`. -/
def matchIdEquals (t : List Char) : Option String :=
  match matchLit "id=" t with
  | none => none
  | some r =>
    let ds := r.takeWhile Char.isDigit
    if ds ≠ [] then some ⟨ds⟩ else none

/-- Leftmost match of an anchored matcher over a string. -/
def firstMatch (f : List Char → Option String) (l : List Char) : Option String :=
  l.tails.findSome? f

/-- `DataProcessor.extractIdFromUrl`: the four patterns in source order, each
searched over the whole URL; a hit yields `BBS` + the digits. -/
def extractIdFromUrl (url : String) : Option String :=
  match firstMatch matchBusinessDash url.data with
  | some d => some ("BBS" ++ d)
  | none =>
    match firstMatch matchListingId url.data with
    | some d => some ("BBS" ++ d)
    | none =>
      match firstMatch matchDigitsBusiness url.data with
      | some d => some ("BBS" ++ d)
      | none =>
        match firstMatch matchIdEquals url.data with
        | some d => some ("BBS" ++ d)
        | none => none

/-- `RawListingData` (modelled fields; see the section comment). -/
structure RawListingData where
  title : Option String := none
  listingId : Option String := none
  url : Option String := none
  location : Option String := none
  industry : Option String := none
  description : Option String := none
  askingPrice : Option String := none
  revenue : Option String := none
  cashFlow : Option String := none
deriving DecidableEq, Repr

/-- The `Partial<BusinessListing>` that `cleanRawData` builds (modelled
fields). -/
structure CleanedListing where
  title : Option String := none
  bizBuySellId : Option String := none
  askingPrice : Option ℚ := none
  revenue : Option ℚ := none
  cashFlow : Option ℚ := none
  location : Option String := none
  industry : Option String := none
  description : Option String := none
deriving DecidableEq, Repr

/-- The canonical `BusinessListing` (modelled fields). -/
structure BusinessListingM where
  title : String
  bizBuySellId : String
  location : String
  industry : String
  description : String
  askingPrice : Option ℚ
  revenue : Option ℚ
  cashFlow : Option ℚ
deriving DecidableEq, Repr

/-- `DataProcessor.cleanRawData` on the modelled fields, with JS truthiness
(`undefined` and `""` falsy) on every guard. -/
def cleanRawData (raw : RawListingData) : CleanedListing :=
  let c : CleanedListing := {}
  let c := match raw.title with
    | some t => if trimStr t ≠ "" then { c with title := some (cleanTitle t) } else c
    | none => c
  let c :=
    if jsTruthy raw.listingId then
      { c with bizBuySellId := some (cleanListingId (raw.listingId.getD "")) }
    else if jsTruthy raw.url then
      match extractIdFromUrl (raw.url.getD "") with
      | some idu => { c with bizBuySellId := some idu }
      | none => c
    else c
  let c := if jsTruthy raw.askingPrice then
    { c with askingPrice := parsePrice (raw.askingPrice.getD "") } else c
  let c := if jsTruthy raw.revenue then
    { c with revenue := parsePrice (raw.revenue.getD "") } else c
  let c := if jsTruthy raw.cashFlow then
    { c with cashFlow := parsePrice (raw.cashFlow.getD "") } else c
  let c := match raw.location with
    | some loc => if trimStr loc ≠ "" then { c with location := some (trimStr loc) } else c
    | none => c
  let c := match raw.industry with
    | some ind => if trimStr ind ≠ "" then { c with industry := some (cleanIndustry ind) } else c
    | none => c
  let c := match raw.description with
    | some d => if trimStr d ≠ "" then { c with description := some (cleanDescription d) } else c
    | none => c
  c

/-- JS truthiness of an optional number: `undefined` and `0` are falsy. -/
def jsTruthyQ : Option ℚ → Bool
  | none => false
  | some q => q ≠ 0

/-- Result of `DataProcessor.validateData`: `data` is `some` exactly when
`errors` is empty (`isValid`). -/
structure ValidationOut where
  isValid : Bool
  data : Option BusinessListingM
  errors : List String
  warnings : List String
deriving DecidableEq, Repr

/-- `DataProcessor.validateData` on the modelled fields (the `established`
and `employees` warnings belong to omitted fields). -/
def validateData (d : CleanedListing) : ValidationOut :=
  let errors :=
    (if ¬ jsTruthy d.title then ["Title is required"] else []) ++
    (if ¬ jsTruthy d.bizBuySellId then ["Listing ID is required"] else []) ++
    (if ¬ jsTruthy d.location then ["Location is required"] else []) ++
    (if jsTruthyQ d.askingPrice ∧ d.askingPrice.getD 0 < 0 then
      ["Asking price cannot be negative"] else [])
  let warnings :=
    (if ¬ jsTruthy d.industry then ["Industry not specified"] else []) ++
    (if ¬ jsTruthy d.description then ["Description not available"] else []) ++
    (if jsTruthyQ d.revenue ∧ d.revenue.getD 0 < 0 then
      ["Revenue is negative"] else []) ++
    (if jsTruthyQ d.askingPrice ∧ jsTruthyQ d.revenue ∧
        d.revenue.getD 0 * 20 < d.askingPrice.getD 0 then
      ["Asking price seems unusually high compared to revenue"] else []) ++
    (if jsTruthyQ d.cashFlow ∧ jsTruthyQ d.revenue ∧
        d.revenue.getD 0 < d.cashFlow.getD 0 then
      ["Cash flow higher than revenue (unusual)"] else [])
  if errors = [] then
    { isValid := true,
      data := some
        { title := d.title.getD "",
          bizBuySellId := d.bizBuySellId.getD "",
          location := d.location.getD "",
          industry := if jsTruthy d.industry then d.industry.getD "" else "other",
          description := if jsTruthy d.description then d.description.getD "" else "",
          askingPrice := d.askingPrice,
          revenue := d.revenue,
          cashFlow := d.cashFlow },
      errors := [], warnings := warnings }
  else
    { isValid := false, data := none, errors := errors, warnings := warnings }

/-- `ProcessingStats` of the data processor. -/
structure ProcessingStats where
  totalProcessed : Nat
  successful : Nat
  failed : Nat
  warnings : Nat
  duplicates : Nat
deriving DecidableEq, Repr

/-- The zeroed statistics (constructor state and `resetStats`). -/
def initialStats : ProcessingStats := ⟨0, 0, 0, 0, 0⟩

/-- The processor's mutable state: the `seenListingIds` set (as a
duplicate-free list) and the running statistics. -/
structure DataProcessorState where
  seenListingIds : List String
  stats : ProcessingStats
deriving DecidableEq, Repr

/-- A fresh `DataProcessor` (also the state after `resetStats`). -/
def initProcessor : DataProcessorState := ⟨[], initialStats⟩

/-- `ProcessingResult` without the `originalData` echo. -/
structure ProcessingResultM where
  success : Bool
  data : Option BusinessListingM
  errors : List String
  warnings : List String
deriving DecidableEq, Repr

/-- `Set.prototype.add`. -/
def addSeen (seen : List String) (id : String) : List String :=
  if id ∈ seen then seen else seen ++ [id]

/-- `DataProcessor.processListing`.  Note the source's asymmetry this file
settles C4 on: the duplicate check tests the RAW `rawData.listingId` against
the seen-set, while a success adds the CLEANED `result.data.bizBuySellId`
(both guarded by JS truthiness).  The `try/catch` is dead in the model (no
modelled step throws). -/
def processListing (st : DataProcessorState) (rawData : RawListingData) :
    DataProcessorState × ProcessingResultM :=
  let stats := { st.stats with totalProcessed := st.stats.totalProcessed + 1 }
  if jsTruthy rawData.listingId ∧ rawData.listingId.getD "" ∈ st.seenListingIds then
    ({ st with stats := { stats with duplicates := stats.duplicates + 1 } },
     ⟨false, none, ["Duplicate listing ID detected"], []⟩)
  else
    let v := validateData (cleanRawData rawData)
    match v.data with
    | some entity =>
      let seen :=
        if entity.bizBuySellId ≠ "" then addSeen st.seenListingIds entity.bizBuySellId
        else st.seenListingIds
      let stats := { stats with successful := stats.successful + 1 }
      let stats :=
        if v.warnings ≠ [] then { stats with warnings := stats.warnings + 1 } else stats
      (⟨seen, stats⟩, ⟨true, some entity, [], v.warnings⟩)
    | none =>
      let stats := { stats with failed := stats.failed + 1 }
      let stats :=
        if v.warnings ≠ [] then { stats with warnings := stats.warnings + 1 } else stats
      ({ st with stats := stats }, ⟨false, none, v.errors, v.warnings⟩)

/-- `DataProcessor.processBatch`: fold `processListing`, splitting results
into successful entities and failed results. -/
def processBatch (st : DataProcessorState) (raws : List RawListingData) :
    DataProcessorState × List BusinessListingM × List ProcessingResultM :=
  raws.foldl
    (fun acc raw =>
      let (st, succ, failed) := acc
      let (st', r) := processListing st raw
      match r.data with
      | some e => if r.success then (st', succ ++ [e], failed) else (st', succ, failed ++ [r])
      | none => (st', succ, failed ++ [r]))
    (st, [], [])

/-! ## Webhook engine (`src/lib/webhooks/webhook-manager.ts`)

Node's `createHmac('sha256', secret)` is embedded as HMAC-SHA256
implemented from FIPS 180-4 / RFC 2104 over byte lists; the round constants
are derived, as in the standard, from the fractional parts of the square and
cube roots of the first primes.  Strings are taken as ASCII, so a string's
bytes are its characters' code points. -/

/-- A 32-bit word: arithmetic is mod `2 ^ 32`. -/
def w32 (n : Nat) : Nat := n % 4294967296

/-- Right-rotation of a 32-bit word. -/
def rotr32 (n x : Nat) : Nat := w32 ((x >>> n) ||| (x <<< (32 - n)))

/-- Largest `r` with `r ^ 3 ≤ n`, by binary descent over `i` bits. -/
def icbrtGo (n : Nat) : Nat → Nat → Nat
  | 0, r => r
  | i + 1, r => icbrtGo n i (if (r + 2 ^ i) ^ 3 ≤ n then r + 2 ^ i else r)

/-- Integer cube root (for inputs below `2 ^ 120`). -/
def icbrt (n : Nat) : Nat := icbrtGo n 40 0

/-- Largest `r` with `r ^ 2 ≤ n`, by binary descent over `i` bits. -/
def isqrtGo (n : Nat) : Nat → Nat → Nat
  | 0, r => r
  | i + 1, r => isqrtGo n i (if (r + 2 ^ i) ^ 2 ≤ n then r + 2 ^ i else r)

/-- Integer square root (for inputs below `2 ^ 80`). -/
def isqrt (n : Nat) : Nat := isqrtGo n 40 0

/-- The first 64 primes, as FIPS 180-4 uses them. -/
def sha256Primes : List Nat :=
  [2, 3, 5, 7, 11, 13, 17, 19, 23, 29, 31, 37, 41, 43, 47, 53, 59, 61, 67,
   71, 73, 79, 83, 89, 97, 101, 103, 107, 109, 113, 127, 131, 137, 139, 149,
   151, 157, 163, 167, 173, 179, 181, 191, 193, 197, 199, 211, 223, 227,
   229, 233, 239, 241, 251, 257, 263, 269, 271, 277, 281, 283, 293, 307, 311]

/-- SHA-256 initial hash: first 32 bits of the fractional parts of the
square roots of the first 8 primes. -/
def sha256H0 : List Nat :=
  (sha256Primes.take 8).map (fun p => w32 (isqrt (p * 2 ^ 64)))

/-- SHA-256 round constants: first 32 bits of the fractional parts of the
cube roots of the first 64 primes. -/
def sha256K : List Nat :=
  sha256Primes.map (fun p => w32 (icbrt (p * 2 ^ 96)))

/-- SHA-256 padding: append `0x80`, zeros to 56 mod 64, and the bit length
as 8 big-endian bytes. -/
def sha256Pad (msg : List Nat) : List Nat :=
  let len := msg.length
  let zeros := (64 - (len + 9) % 64) % 64
  msg ++ [128] ++ List.replicate zeros 0 ++
    (List.range 8).map (fun i => (len * 8) >>> (8 * (7 - i)) % 256 |> (· % 256))

/-- Big-endian 32-bit words of a 64-byte block. -/
def blockWords (block : List Nat) : List Nat :=
  (List.range 16).map (fun i =>
    (block.getD (4 * i) 0) * 16777216 + (block.getD (4 * i + 1) 0) * 65536 +
    (block.getD (4 * i + 2) 0) * 256 + block.getD (4 * i + 3) 0)

/-- Message-schedule extension: `w` on indices 16..63. -/
def sha256Extend (ws : List Nat) : List Nat :=
  (List.range 48).foldl
    (fun w _ =>
      let n := w.length
      let s0 :=
        rotr32 7 (w.getD (n - 15) 0) ^^^ rotr32 18 (w.getD (n - 15) 0) ^^^
          (w.getD (n - 15) 0 >>> 3)
      let s1 :=
        rotr32 17 (w.getD (n - 2) 0) ^^^ rotr32 19 (w.getD (n - 2) 0) ^^^
          (w.getD (n - 2) 0 >>> 10)
      w ++ [w32 (w.getD (n - 16) 0 + s0 + w.getD (n - 7) 0 + s1)])
    ws

/-- One SHA-256 compression of a 64-byte block into the running hash. -/
def sha256Compress (h : List Nat) (block : List Nat) : List Nat :=
  let w := sha256Extend (blockWords block)
  let st := (List.range 64).foldl
    (fun st i =>
      let (a, b, c, d, e, f, g, hh) := st
      let s1 := rotr32 6 e ^^^ rotr32 11 e ^^^ rotr32 25 e
      let ch := (e &&& f) ^^^ ((4294967295 - e) &&& g)
      let temp1 := w32 (hh + s1 + ch + sha256K.getD i 0 + w.getD i 0)
      let s0 := rotr32 2 a ^^^ rotr32 13 a ^^^ rotr32 22 a
      let maj := (a &&& b) ^^^ (a &&& c) ^^^ (b &&& c)
      let temp2 := w32 (s0 + maj)
      (w32 (temp1 + temp2), a, b, c, w32 (d + temp1), e, f, g))
    (h.getD 0 0, h.getD 1 0, h.getD 2 0, h.getD 3 0,
     h.getD 4 0, h.getD 5 0, h.getD 6 0, h.getD 7 0)
  let (a, b, c, d, e, f, g, hh) := st
  [w32 (h.getD 0 0 + a), w32 (h.getD 1 0 + b), w32 (h.getD 2 0 + c),
   w32 (h.getD 3 0 + d), w32 (h.getD 4 0 + e), w32 (h.getD 5 0 + f),
   w32 (h.getD 6 0 + g), w32 (h.getD 7 0 + hh)]

/-- SHA-256 of a byte list, as 32 bytes. -/
def sha256bytes (msg : List Nat) : List Nat :=
  let padded := sha256Pad msg
  let nBlocks := padded.length / 64
  let blocks := (List.range nBlocks).map (fun i => (padded.drop (64 * i)).take 64)
  let h := blocks.foldl sha256Compress sha256H0
  h.flatMap (fun word => (List.range 4).map (fun i => word >>> (8 * (3 - i)) % 256 |> (· % 256)))

/-- HMAC-SHA256 (RFC 2104): block size 64, opad `0x5c`, ipad `0x36`. -/
def hmacSha256 (key msg : List Nat) : List Nat :=
  let k0 := if 64 < key.length then sha256bytes key else key
  let k := k0 ++ List.replicate (64 - k0.length) 0
  sha256bytes ((k.map (fun b => b ^^^ 92)) ++
    sha256bytes ((k.map (fun b => b ^^^ 54)) ++ msg))

/-- Lowercase hex digit. -/
def hexDigit (n : Nat) : Char :=
  if n < 10 then Char.ofNat (48 + n) else Char.ofNat (87 + n)

/-- Node's `digest('hex')`: lowercase hex of a byte list. -/
def bytesToHex (bs : List Nat) : String :=
  ⟨bs.flatMap (fun b => [hexDigit (b / 16), hexDigit (b % 16)])⟩

/-- Bytes of an ASCII string (code points; agrees with UTF-8 on ASCII). -/
def strBytes (s : String) : List Nat := s.data.map Char.toNat

/-- `WebhookManager.generateSignature`:
`'sha256=' + createHmac('sha256', secret).update(payload).digest('hex')`. -/
def generateSignature (payload secret : String) : String :=
  "sha256=" ++ bytesToHex (hmacSha256 (strBytes secret) (strBytes payload))

/-- `WebhookManager.validateSignature`: strict string comparison against the
recomputed signature. -/
def validateSignature (payload signature secret : String) : Bool :=
  signature == generateSignature payload secret

/-- The endpoint fields `attemptDelivery`/`sendWebhook` read and write. -/
structure WebhookEndpointM where
  enabled : Bool
  failureCount : Nat
  secret : String
deriving DecidableEq, Repr

/-- `WebhookDelivery.status` values. -/
inductive DeliveryStatus where
  | pending
  | delivered
  | retry
  | failed
deriving DecidableEq, Repr

/-- The delivery fields the control flow reads and writes; `payloadStr` is
`JSON.stringify(delivery.payload)`, the exact POST body. -/
structure WebhookDeliveryM where
  attempts : Nat
  status : DeliveryStatus
  payloadStr : String
deriving DecidableEq, Repr

/-- `MAX_RETRY_ATTEMPTS` of `WebhookManager`. -/
def maxRetryAttempts : Nat := 5

/-- The `X-Webhook-Signature-256` header value `sendWebhook` computes for a
delivery: the signature of the JSON body under the endpoint's secret. -/
def sendWebhookSignature (ep : WebhookEndpointM) (d : WebhookDeliveryM) : String :=
  generateSignature d.payloadStr ep.secret

/-- One `attemptDelivery(delivery)` with HTTP outcome `ok` (2xx or not):
success resets the endpoint's failure counter; failure bumps the delivery's
attempt count and the endpoint's counter, then either schedules a retry
(attempts still below the maximum) or marks the delivery permanently failed
— and only on that exhausted branch, when the counter exceeds 10, disables
the endpoint.  A disabled endpoint's delivery is skipped unchanged. -/
def attemptDelivery (ep : WebhookEndpointM) (d : WebhookDeliveryM) (ok : Bool) :
    WebhookEndpointM × WebhookDeliveryM :=
  if ¬ ep.enabled then (ep, d)
  else if ok then
    ({ ep with failureCount := 0 }, { d with status := .delivered })
  else
    let attempts := d.attempts + 1
    let fc := ep.failureCount + 1
    if attempts < maxRetryAttempts then
      ({ ep with failureCount := fc }, { d with attempts := attempts, status := .retry })
    else
      let enabled := if 10 < fc then false else ep.enabled
      ({ ep with failureCount := fc, enabled := enabled },
       { d with attempts := attempts, status := .failed })

end ESMarket


namespace ESMarket

/-! ## Concrete runs used by the theorems below -/

/-- Three PENDING jobs submitted with priorities [LOW, HIGH, NORMAL] in that
creation order, concurrency cap 1 (the spec's end-to-end scenario). -/
def demoQueue : QueueState :=
  ⟨[⟨1, .LOW, .PENDING, 0, none, 0, none⟩,
    ⟨2, .HIGH, .PENDING, 1, none, 1, none⟩,
    ⟨3, .NORMAL, .PENDING, 2, none, 2, none⟩], [], 1⟩

/-- The HIGH job of `demoQueue`. -/
def demoJobHigh : ScrapeJob := ⟨2, .HIGH, .PENDING, 1, none, 1, none⟩

/-- A queue (cap 1) holding one job that has sat in PROCESSING since time 0
with its slot taken, and one PENDING job. -/
def stalledQueue : QueueState :=
  ⟨[⟨1, .NORMAL, .PROCESSING, 0, some 0, 0, none⟩,
    ⟨2, .NORMAL, .PENDING, 1, none, 1, none⟩], [1], 1⟩

/-- A valid raw record whose listing id "abc-1" is NOT a fixed point of
`cleanListingId` (which uppercases it to "ABC-1"). -/
def dupRaw : RawListingData :=
  { title := some "Main Street Cafe", listingId := some "abc-1",
    location := some "Austin, TX" }

/-- The same record with a listing id that `cleanListingId` leaves alone. -/
def dupRawFixed : RawListingData :=
  { title := some "Main Street Cafe", listingId := some "BBS123",
    location := some "Austin, TX" }

end ESMarket

namespace ESMarket

/-! ## Shared helper lemmas -/

/-- The failure-result branches of `retryGo` always report
`maxRetries + 1` attempts, whatever actually happened. -/
theorem retryGo_success_false {α : Type} (op : Nat → Except String α)
    (cfg : RetryConfigM) (rand : Nat → ℚ) :
    ∀ (fuel attempt : Nat) (acc : List ℚ),
      (retryGo op cfg rand fuel attempt acc).1.success = false →
      (retryGo op cfg rand fuel attempt acc).1.attempts = cfg.maxRetries + 1 := by
  intro fuel
  induction fuel with
  | zero => intro attempt acc _; simp [retryGo]
  | succ fuel ih =>
    intro attempt acc h
    cases hop : op attempt with
    | ok v => simp only [retryGo, hop] at h; simp at h
    | error e =>
      simp only [retryGo, hop] at h ⊢
      by_cases hc : cfg.maxRetries < attempt
      · simp [hc]
      · simp only [if_neg hc] at h ⊢
        by_cases hr : isRetryableError e cfg.retryableErrors (classifyError e) = true
        · simp only [hr, if_true] at h ⊢
          exact ih (attempt + 1) _ h
        · simp [hr]

/-- The number of retry delays `retryGo` sleeps is bounded by the retries
left before the loop's break point. -/
theorem retryGo_delays_length_le {α : Type} (op : Nat → Except String α)
    (cfg : RetryConfigM) (rand : Nat → ℚ) :
    ∀ (fuel attempt : Nat) (acc : List ℚ),
      (retryGo op cfg rand fuel attempt acc).2.length ≤
        acc.length + (cfg.maxRetries + 1 - attempt) := by
  intro fuel
  induction fuel with
  | zero => intro attempt acc; simp [retryGo]
  | succ fuel ih =>
    intro attempt acc
    cases hop : op attempt with
    | ok v => simp [retryGo, hop]
    | error e =>
      simp only [retryGo, hop]
      by_cases hc : cfg.maxRetries < attempt
      · simp [hc]
      · simp only [if_neg hc]
        by_cases hr : isRetryableError e cfg.retryableErrors (classifyError e) = true
        · simp only [hr, if_true]
          have := ih (attempt + 1)
            (calculateDelay (attempt - 1) cfg.baseDelay cfg.backoffMultiplier
              cfg.maxDelay (rand attempt) :: acc)
          refine this.trans ?_
          simp only [List.length_cons]
          omega
        · simp [hr]

/-- When every attempt throws a retryable error, the loop retries at every
attempt up to the break, sleeping exactly the source's delays, and returns
the last attempt's error. -/
theorem retryGo_all_fail {α : Type} (op : Nat → Except String α)
    (cfg : RetryConfigM) (rand : Nat → ℚ) (e : Nat → String)
    (hop : ∀ a, op a = .error (e a))
    (hr : ∀ a, isRetryableError (e a) cfg.retryableErrors (classifyError (e a)) = true) :
    ∀ (fuel attempt : Nat) (acc : List ℚ),
      attempt + fuel = cfg.maxRetries + 2 → attempt ≤ cfg.maxRetries + 1 →
      (retryGo op cfg rand fuel attempt acc).1 =
        ⟨false, none, some (e (cfg.maxRetries + 1)), cfg.maxRetries + 1⟩ ∧
      (retryGo op cfg rand fuel attempt acc).2 =
        acc.reverse ++ (List.range' attempt (cfg.maxRetries + 1 - attempt)).map
          (fun a => calculateDelay (a - 1) cfg.baseDelay cfg.backoffMultiplier
            cfg.maxDelay (rand a)) := by
  intro fuel
  induction fuel with
  | zero => intro attempt acc hsum hle; omega
  | succ fuel ih =>
    intro attempt acc hsum hle
    simp only [retryGo, hop attempt]
    by_cases hc : cfg.maxRetries < attempt
    · have hattempt : attempt = cfg.maxRetries + 1 := by omega
      subst hattempt
      simp [hc]
    · simp only [if_neg hc, hr attempt, if_true]
      have hrec := ih (attempt + 1)
        (calculateDelay (attempt - 1) cfg.baseDelay cfg.backoffMultiplier
          cfg.maxDelay (rand attempt) :: acc) (by omega) (by omega)
      refine ⟨hrec.1, ?_⟩
      rw [hrec.2]
      have hn : cfg.maxRetries + 1 - attempt = (cfg.maxRetries + 1 - (attempt + 1)) + 1 := by
        omega
      rw [hn, List.range'_succ]
      simp

end ESMarket

namespace ESMarket

/-! ## C10 -/

/-- C10: whenever `executeWithRetry` returns an unsuccessful result —
including a first-attempt non-retryable failure — the reported `attempts`
field equals `maxRetries + 1`, not the number of attempts actually made. -/
theorem executeWithRetry_failure_reports_max_attempts {α : Type}
    (op : Nat → Except String α) (cfg : RetryConfigM) (rand : Nat → ℚ)
    (h : (executeWithRetry op cfg rand).1.success = false) :
    (executeWithRetry op cfg rand).1.attempts = cfg.maxRetries + 1 :=
  retryGo_success_false op cfg rand _ 1 [] h

/-- Witness for C10: a CAPTCHA error ends the run on the very first attempt
(the empty delay list shows no retry was slept), yet `attempts` reads
`3 + 1`. -/
theorem executeWithRetry_failure_reports_max_attempts_witness :
    (executeWithRetry (α := Unit) (fun _ => Except.error "captcha detected")
      ⟨3, 1000, 30000, 2, defaultRetryableErrors⟩ (fun _ => 0)).1.attempts = 3 + 1 ∧
    (executeWithRetry (α := Unit) (fun _ => Except.error "captcha detected")
      ⟨3, 1000, 30000, 2, defaultRetryableErrors⟩ (fun _ => 0)).2 = [] :=
  ⟨executeWithRetry_failure_reports_max_attempts _ _ _ (by decide), by decide⟩

/-! ## C9 -/

/-- C9: the delay before the (k+1)-th retry is
`min(base * multiplier ^ k + jitter, maxDelay)` with
`0 ≤ jitter ≤ 0.1 * base * multiplier ^ k`; the pre-jitter delays are
strictly increasing (for a genuinely exponential configuration,
`base > 0`, `multiplier > 1`); at most `maxRetries` retries are slept, and
an operation whose every attempt throws a retryable error (such as TIMEOUT)
is retried exactly `maxRetries` times, sleeping exactly the source's
delays, before failing with the last error. -/
theorem retry_backoff_spec (base mult maxD r : ℚ) (k maxR : Nat)
    (errs : List String) (rand : Nat → ℚ) (e : Nat → String)
    (op : Nat → Except String Unit)
    (hb : 0 < base) (hm : 1 < mult) (hr0 : 0 ≤ r) (hr1 : r < 1)
    (hretry : ∀ a, isRetryableError (e a) errs (classifyError (e a)) = true) :
    calculateDelay k base mult maxD r
      = min (base * mult ^ k + r * (1 / 10) * (base * mult ^ k)) maxD ∧
    0 ≤ r * (1 / 10) * (base * mult ^ k) ∧
    r * (1 / 10) * (base * mult ^ k) ≤ (1 / 10) * (base * mult ^ k) ∧
    base * mult ^ k < base * mult ^ (k + 1) ∧
    (executeWithRetry op ⟨maxR, base, maxD, mult, errs⟩ rand).2.length ≤ maxR ∧
    (executeWithRetry (α := Unit) (fun a => Except.error (e a))
        ⟨maxR, base, maxD, mult, errs⟩ rand).1
      = ⟨false, none, some (e (maxR + 1)), maxR + 1⟩ ∧
    (executeWithRetry (α := Unit) (fun a => Except.error (e a))
        ⟨maxR, base, maxD, mult, errs⟩ rand).2
      = (List.range' 1 maxR).map
          (fun a => calculateDelay (a - 1) base mult maxD (rand a)) := by
  have hm0 : (0 : ℚ) < mult := lt_trans zero_lt_one hm
  have hpre : (0 : ℚ) < base * mult ^ k := by positivity
  have hfail := retryGo_all_fail (α := Unit) (fun a => Except.error (e a))
    ⟨maxR, base, maxD, mult, errs⟩ rand e (fun a => rfl) hretry
    (maxR + 1) 1 [] (show 1 + (maxR + 1) = maxR + 2 by omega)
    (show 1 ≤ maxR + 1 by omega)
  refine ⟨rfl, ?_, ?_, ?_, ?_, ?_, ?_⟩
  · have h10 : (0 : ℚ) ≤ (1 / 10) * (base * mult ^ k) := by positivity
    calc (0 : ℚ) = 0 * ((1 / 10) * (base * mult ^ k)) := by ring
    _ ≤ r * ((1 / 10) * (base * mult ^ k)) := by
        exact mul_le_mul_of_nonneg_right hr0 h10
    _ = r * (1 / 10) * (base * mult ^ k) := by ring
  · have h10 : (0 : ℚ) ≤ (1 / 10) * (base * mult ^ k) := by positivity
    calc r * (1 / 10) * (base * mult ^ k)
        = r * ((1 / 10) * (base * mult ^ k)) := by ring
    _ ≤ 1 * ((1 / 10) * (base * mult ^ k)) := mul_le_mul_of_nonneg_right hr1.le h10
    _ = (1 / 10) * (base * mult ^ k) := by ring
  · have hpk : (0 : ℚ) < mult ^ k := by positivity
    calc base * mult ^ k = base * (mult ^ k * 1) := by ring
    _ < base * (mult ^ k * mult) := by
        exact mul_lt_mul_of_pos_left (mul_lt_mul_of_pos_left hm hpk) hb
    _ = base * mult ^ (k + 1) := by ring
  · have := retryGo_delays_length_le op ⟨maxR, base, maxD, mult, errs⟩ rand
      (maxR + 1) 1 []
    simpa using this
  · exact hfail.1
  · rw [executeWithRetry, hfail.2]
    simp

/-- Witness for C9 at the default configuration (base 1000, multiplier 2,
cap 30000, maxRetries 3), jitter draw 1/2, every attempt throwing
"timeout". -/
theorem retry_backoff_witness :
    calculateDelay 0 1000 2 30000 (1 / 2)
      = min ((1000 : ℚ) * 2 ^ 0 + (1 / 2) * (1 / 10) * (1000 * 2 ^ 0)) 30000 ∧
    (0 : ℚ) ≤ (1 / 2) * (1 / 10) * (1000 * 2 ^ 0) ∧
    (1 / 2) * (1 / 10) * ((1000 : ℚ) * 2 ^ 0) ≤ (1 / 10) * (1000 * 2 ^ 0) ∧
    (1000 : ℚ) * 2 ^ 0 < 1000 * 2 ^ (0 + 1) ∧
    (executeWithRetry (α := Unit) (fun _ => Except.error "captcha")
        ⟨3, 1000, 30000, 2, defaultRetryableErrors⟩ (fun _ => 1 / 2)).2.length ≤ 3 ∧
    (executeWithRetry (α := Unit) (fun _ => Except.error "timeout")
        ⟨3, 1000, 30000, 2, defaultRetryableErrors⟩ (fun _ => 1 / 2)).1
      = ⟨false, none, some "timeout", 3 + 1⟩ ∧
    (executeWithRetry (α := Unit) (fun _ => Except.error "timeout")
        ⟨3, 1000, 30000, 2, defaultRetryableErrors⟩ (fun _ => 1 / 2)).2
      = (List.range' 1 3).map
          (fun a => calculateDelay (a - 1) 1000 2 30000 (1 / 2)) := by
  have h : isRetryableError "timeout" defaultRetryableErrors
      (classifyError "timeout") = true := by decide
  exact retry_backoff_spec 1000 2 30000 (1 / 2) 0 3 defaultRetryableErrors
    (fun _ => 1 / 2) (fun _ => "timeout") (fun _ => Except.error "captcha")
    (by norm_num) (by norm_num) (by norm_num) (by norm_num) (fun a => h)

end ESMarket

namespace ESMarket

/-! ## C2 -/

/-- C2 (divergence witness): an error whose message contains "rate limit"
is classified BLOCKED — the earlier BLOCKED branch of `classifyError` also
tests for "rate limit", making the RATE_LIMITED branch's own "rate limit"
test unreachable — so it is not retryable, and `executeWithRetry` gives up
after the first attempt without sleeping a single retry delay, against the
claim (and the spec's retry policy) that rate-limit errors are classified
RATE_LIMITED and retried. -/
theorem rateLimit_classified_blocked_and_not_retried :
    classifyError "Rate limit exceeded" = ErrorType.blocked ∧
    isRetryableError "Rate limit exceeded" defaultRetryableErrors
      ErrorType.blocked = false ∧
    (executeWithRetry (α := Unit) (fun _ => Except.error "Rate limit exceeded")
        ⟨3, 1000, 30000, 2, defaultRetryableErrors⟩ (fun _ => 0)).1
      = ⟨false, none, some "Rate limit exceeded", 4⟩ ∧
    (executeWithRetry (α := Unit) (fun _ => Except.error "Rate limit exceeded")
        ⟨3, 1000, 30000, 2, defaultRetryableErrors⟩ (fun _ => 0)).2 = [] ∧
    classifyError "too many requests" = ErrorType.rate_limited := by
  decide

/-! ## C3 -/

/-- C3 (divergence witness): the reaper turns the stalled PROCESSING job
FAILED with the descriptive timeout error, but its id stays in
`currentJobs`; since `processQueue` gates on `currentJobs.size`, the next
poll dispatches nothing even though no job is PROCESSING any more — the
concurrency slot is never released, against the claim. -/
theorem stalled_job_reaped_but_slot_not_released :
    (cleanup stalledQueue 700000).jobs
      = [⟨1, .NORMAL, .FAILED, 0, some 0, 700000,
          some "Job timed out (stalled for more than 10 minutes)"⟩,
         ⟨2, .NORMAL, .PENDING, 1, none, 1, none⟩] ∧
    (cleanup stalledQueue 700000).currentJobs = [1] ∧
    processingCount (cleanup stalledQueue 700000).jobs = 0 ∧
    processQueue (cleanup stalledQueue 700000) 700001
      = (cleanup stalledQueue 700000, none) := by
  decide

/-! ## C4 -/

/-- C4 (divergence witness): the duplicate check compares the raw
`listingId` against a seen-set of cleaned ids, so a record whose id "abc-1"
is uppercased by `cleanListingId` sails past the check both times: the same
raw record processed twice in one batch yields TWO successful canonical
entities with the same dedup key "ABC-1" and no duplicate outcome.  The
control record, whose id "BBS123" is a fixed point of `cleanListingId`,
dedups exactly as the claim expects. -/
theorem dedup_key_emitted_twice_for_noncanonical_id :
    ((processBatch initProcessor [dupRaw, dupRaw]).2.1.map
      (fun e => e.bizBuySellId)) = ["ABC-1", "ABC-1"] ∧
    (processBatch initProcessor [dupRaw, dupRaw]).1.stats.successful = 2 ∧
    (processBatch initProcessor [dupRaw, dupRaw]).1.stats.duplicates = 0 ∧
    (processBatch initProcessor [dupRawFixed, dupRawFixed]).1.stats.successful = 1 ∧
    (processBatch initProcessor [dupRawFixed, dupRawFixed]).1.stats.duplicates = 1 ∧
    (processListing (processListing initProcessor dupRawFixed).1 dupRawFixed).2
      = ⟨false, none, ["Duplicate listing ID detected"], []⟩ := by
  decide

end ESMarket

namespace ESMarket

/-! ## C1 -/

/-- Folding consecutive failures through a closed breaker below the
threshold keeps it closed and counts them. -/
theorem cbRun_consecutive_failures (N T : Nat) :
    ∀ (ts : List Nat) (s : CBState), s.status = .closed →
      s.failures + ts.length < N →
      (cbRun N T s (ts.map (fun x => (x, false)))).status = .closed ∧
      (cbRun N T s (ts.map (fun x => (x, false)))).failures
        = s.failures + ts.length := by
  intro ts
  induction ts with
  | nil => intro s h _; simp [cbRun, h]
  | cons x xs ih =>
    intro s h hlt
    have hno : ¬(s.status = CBStatus.opened ∧ T < x - s.lastFailureTime) := by
      simp [h]
    have hf : ¬ N ≤ s.failures + 1 := by
      simp only [List.length_cons] at hlt; omega
    have hstep : (cbExecute N T s x false).1 = ⟨s.failures + 1, x, .closed⟩ := by
      simp [cbExecute, hno, h, hf]
    simp only [List.map_cons, cbRun, List.foldl_cons]
    rw [hstep]
    have := ih ⟨s.failures + 1, x, .closed⟩ rfl
      (by simp only [List.length_cons] at hlt; simp; omega)
    simp only [cbRun] at this
    refine ⟨this.1, ?_⟩
    rw [this.2]
    simp; omega

/-- C1 counterexample: with threshold N = 2 and reset timeout T = 10, two
failures at times 0 and 1 open the breaker; at time 12 (past the timeout)
the trial call is made in HALF_OPEN — the counter having been reset to 0 —
and its failure leaves the breaker HALF_OPEN, not OPEN, refuting "a single
failure in HALF_OPEN reopens it". -/
theorem circuitBreaker_halfOpen_failure_counterexample :
    (cbRun 2 10 ⟨0, 0, .closed⟩ [(0, false), (1, false)]).status = .opened ∧
    (cbExecute 2 10 (cbRun 2 10 ⟨0, 0, .closed⟩ [(0, false), (1, false)])
      12 false).2 = .failed ∧
    (cbExecute 2 10 (cbRun 2 10 ⟨0, 0, .closed⟩ [(0, false), (1, false)])
      12 false).1.status = .halfOpen ∧
    CBStatus.halfOpen ≠ CBStatus.opened := by
  decide

/-- C1 (amended): (i) a failure from a non-OPEN state increments the
counter and the breaker is OPEN afterwards exactly when the counter reached
N; (ii) while OPEN and within the reset timeout any call is rejected with
the state unchanged, the wrapped operation not consulted; (iii) once more
than T has elapsed since the last failure, the next call runs as the
HALF_OPEN trial: a success returns the breaker to CLOSED with the counter
at zero; (iv) a failing trial leaves the counter at 1 and reopens the
breaker only when N = 1 — for N ≥ 2 it stays HALF_OPEN; (v) N consecutive
failures from a fresh breaker leave it OPEN. -/
theorem circuitBreaker_lifecycle (N T : Nat) (s : CBState) (now : Nat)
    (b : Bool) (ts : List Nat) (t : Nat) :
    (s.status ≠ .opened →
      (cbExecute N T s now false).1.failures = s.failures + 1 ∧
      ((cbExecute N T s now false).1.status = .opened ↔ N ≤ s.failures + 1)) ∧
    (s.status = .opened → now - s.lastFailureTime ≤ T →
      cbExecute N T s now b = (s, .rejected)) ∧
    (s.status = .opened → T < now - s.lastFailureTime →
      cbExecute N T s now true = (⟨0, s.lastFailureTime, .closed⟩, .succeeded)) ∧
    (s.status = .opened → T < now - s.lastFailureTime →
      cbExecute N T s now false =
        (⟨1, now, if N ≤ 1 then .opened else .halfOpen⟩, .failed)) ∧
    (ts.length + 1 = N →
      (cbRun N T ⟨0, 0, .closed⟩ ((ts.map (fun x => (x, false))) ++ [(t, false)])).status
        = .opened) := by
  refine ⟨?_, ?_, ?_, ?_, ?_⟩
  · intro h
    have hno : ¬(s.status = CBStatus.opened ∧ T < now - s.lastFailureTime) := by
      intro hc; exact h hc.1
    constructor
    · simp [cbExecute, hno, h]
    · by_cases hN : N ≤ s.failures + 1
      · simp [cbExecute, hno, h, hN]
      · simp [cbExecute, hno, h, hN]
  · intro h hle
    have hlt : ¬ T < now - s.lastFailureTime := by omega
    simp [cbExecute, h, hlt]
  · intro h hgt
    simp [cbExecute, h, hgt]
  · intro h hgt
    by_cases hN : N ≤ 1
    · simp [cbExecute, h, hgt, hN]
    · simp [cbExecute, h, hgt, hN]
  · intro hN
    have hrun := cbRun_consecutive_failures N T ts ⟨0, 0, .closed⟩ rfl
      (by simp; omega)
    simp only [cbRun] at hrun ⊢
    rw [List.foldl_append]
    set st := List.foldl
      (fun stx ev => (cbExecute N T stx ev.1 ev.2).1) ⟨0, 0, .closed⟩
      (ts.map (fun x => (x, false))) with hst
    have h1 : st.status = .closed := hrun.1
    have h2 : st.failures = ts.length := by simpa using hrun.2
    have hno : ¬(st.status = CBStatus.opened ∧ T < t - st.lastFailureTime) := by
      simp [h1]
    have hf : N ≤ st.failures + 1 := by omega
    simp [cbExecute, hno, h1, hf]

end ESMarket

namespace ESMarket

/-! ## C6 -/

/-- C6 counterexample: an enabled endpoint whose counter stands at 10 fails
a delivery that still has retry attempts left (attempts goes 0 → 1 < 5):
the counter crosses the ceiling (11 > 10) yet the endpoint stays enabled
and the delivery is merely scheduled for retry — the disabling is NOT
independent of per-delivery retry exhaustion. -/
theorem endpoint_ceiling_crossed_but_still_enabled :
    attemptDelivery ⟨true, 10, "s"⟩ ⟨0, .pending, "p"⟩ false
      = (⟨true, 11, "s"⟩, ⟨1, .retry, "p"⟩) ∧
    10 < 11 ∧
    (attemptDelivery ⟨true, 10, "s"⟩ ⟨0, .pending, "p"⟩ false).1.enabled = true := by
  decide

/-- C6 (amended): on a failed delivery attempt to an enabled endpoint, the
failure counter always increments and the delivery's attempt count
increments, but the endpoint is auto-disabled exactly when the failure
exhausts the delivery's retry attempts (reaching MAX_RETRY_ATTEMPTS = 5)
AND the counter then exceeds the hard ceiling 10; a ceiling-crossing
failure on a delivery with attempts remaining leaves the endpoint
enabled. -/
theorem endpoint_disable_requires_retry_exhaustion
    (ep : WebhookEndpointM) (d : WebhookDeliveryM) (h : ep.enabled = true) :
    (attemptDelivery ep d false).1.failureCount = ep.failureCount + 1 ∧
    (attemptDelivery ep d false).2.attempts = d.attempts + 1 ∧
    ((attemptDelivery ep d false).1.enabled = false ↔
      (maxRetryAttempts ≤ d.attempts + 1 ∧ 10 < ep.failureCount + 1)) := by
  by_cases ha : d.attempts + 1 < maxRetryAttempts
  · have hna : ¬ maxRetryAttempts ≤ d.attempts + 1 := by omega
    simp [attemptDelivery, h, ha, hna]
  · by_cases hc : 10 < ep.failureCount + 1
    · simp [attemptDelivery, h, ha, hc]
      omega
    · simp [attemptDelivery, h, ha, hc]

/-- Witness for C6: the exhausting failure (fifth attempt) with a counter
at 10 disables the endpoint. -/
theorem endpoint_disable_requires_retry_exhaustion_witness :
    (attemptDelivery ⟨true, 10, "s"⟩ ⟨4, .retry, "p"⟩ false).1.failureCount
      = 10 + 1 ∧
    (attemptDelivery ⟨true, 10, "s"⟩ ⟨4, .retry, "p"⟩ false).2.attempts = 4 + 1 ∧
    ((attemptDelivery ⟨true, 10, "s"⟩ ⟨4, .retry, "p"⟩ false).1.enabled = false ↔
      (maxRetryAttempts ≤ 4 + 1 ∧ 10 < 10 + 1)) :=
  endpoint_disable_requires_retry_exhaustion ⟨true, 10, "s"⟩ ⟨4, .retry, "p"⟩ rfl

/-! ## C7 -/

/-- C7: the signature header `sendWebhook` computes equals
"sha256=" + hex(HMAC-SHA256(endpoint secret, JSON body)), and
`validateSignature payload signature secret` returns true exactly when
`signature` equals "sha256=" + hex(HMAC-SHA256(secret, payload)). -/
theorem webhook_signature_spec (ep : WebhookEndpointM) (d : WebhookDeliveryM)
    (payload signature secret : String) :
    sendWebhookSignature ep d
      = "sha256=" ++ bytesToHex (hmacSha256 (strBytes ep.secret) (strBytes d.payloadStr)) ∧
    (validateSignature payload signature secret = true ↔
      signature = "sha256=" ++ bytesToHex (hmacSha256 (strBytes secret) (strBytes payload))) := by
  constructor
  · rfl
  · simp only [validateSignature, generateSignature, beq_iff_eq]

end ESMarket

namespace ESMarket

/-! ## C8 -/

/-- C8 counterexample: with one slot (N = 1, W = 10) and a request recorded
at time 0, a `wait()` entered at time 5 returns at time 10 — but the
timestamp it records is 5, the time observed before the sleep, not the
time at which the wait completes. -/
theorem rlWait_records_presleep_timestamp :
    rlWait 1 10 [0] 5 = ([0, 5], 10) ∧ (5 : Nat) ≠ 10 := by decide

/-- C8 (amended): `wait()` keeps exactly the in-window timestamps plus the
one it records — the time observed at entry, before any sleep — and
returns no earlier than it was entered; if at entry at most `maxRequests`
timestamps were in-window (the invariant every reachable state satisfies),
then at the moment `wait()` returns at most `maxRequests` recorded
timestamps lie within the trailing window ending at that moment. -/
theorem rlWait_spec (N W : Nat) (s : List Nat) (now : Nat)
    (hN : 1 ≤ N) (hmono : ∀ x ∈ s, x ≤ now)
    (hcount : (inWindow W now s).length ≤ N) :
    (rlWait N W s now).1 = inWindow W now s ++ [now] ∧
    now ≤ (rlWait N W s now).2 ∧
    (∀ x ∈ (rlWait N W s now).1, x ≤ (rlWait N W s now).2) ∧
    (inWindow W (rlWait N W s now).2 (rlWait N W s now).1).length ≤ N := by
  by_cases hfull : N ≤ (inWindow W now s).length
  · have hlen : (inWindow W now s).length = N := le_antisymm hcount hfull
    cases hmin : (inWindow W now s).min? with
    | none =>
      rw [List.min?_eq_none_iff] at hmin
      rw [hmin] at hlen
      simp at hlen
      omega
    | some oldest =>
      have hspec := (List.min?_eq_some_iff (fun x => le_refl x)
        (fun x y => min_choice x y) (fun x y z => le_min_iff)).mp hmin
      have hmem : oldest ∈ inWindow W now s := hspec.1
      have holdnow : oldest ≤ now := hmono oldest (List.mem_of_mem_filter hmem)
      have holdw : now - oldest < W := by
        have := List.of_mem_filter hmem
        simpa using this
      have hpos : 0 < W - (now - oldest) := by omega
      have hstep : rlWait N W s now
          = (inWindow W now s ++ [now], now + (W - (now - oldest))) := by
        have hfull' : N ≤ (List.filter (fun t => decide (now - t < W)) s).length := hfull
        have hmin' : (List.filter (fun t => decide (now - t < W)) s).min? = some oldest :=
          hmin
        simp only [rlWait, inWindow]
        rw [if_pos hfull', hmin']
        simp [hpos]
      rw [hstep]
      refine ⟨rfl, Nat.le_add_right _ _, ?_, ?_⟩
      · intro x hx
        rcases List.mem_append.mp hx with hx | hx
        · exact (hmono x (List.mem_of_mem_filter hx)).trans (Nat.le_add_right _ _)
        · simp at hx
          omega
      · have hlt : (List.filter (fun t => decide (now + (W - (now - oldest)) - t < W))
            (inWindow W now s)).length < (inWindow W now s).length := by
          rw [List.length_filter_lt_length_iff_exists]
          refine ⟨oldest, hmem, ?_⟩
          simp only [decide_eq_true_eq]
          omega
        have h1 : (List.filter (fun t => decide (now + (W - (now - oldest)) - t < W))
            [now]).length ≤ 1 := by
          simpa using List.length_filter_le _ [now]
        simp only [inWindow] at hlt hlen ⊢
        rw [List.filter_append, List.length_append]
        omega
  · have hstep : rlWait N W s now = (inWindow W now s ++ [now], now) := by
      simp only [rlWait, inWindow] at hfull ⊢
      rw [if_neg hfull]
    rw [hstep]
    dsimp only
    refine ⟨rfl, le_refl now, ?_, ?_⟩
    · intro x hx
      rcases List.mem_append.mp hx with hx | hx
      · exact hmono x (List.mem_of_mem_filter hx)
      · simp at hx
        omega
    · have h2 : (inWindow W now (inWindow W now s ++ [now])).length
          ≤ (inWindow W now s).length + 1 := by
        rw [inWindow]
        have := List.length_filter_le (fun t => decide (now - t < W))
          (inWindow W now s ++ [now])
        simpa using this
      omega

/-- Witness for C8 at the counterexample's input: one slot, window 10,
state [0], entry at time 5. -/
theorem rlWait_spec_witness :
    (rlWait 1 10 [0] 5).1 = inWindow 10 5 [0] ++ [5] ∧
    5 ≤ (rlWait 1 10 [0] 5).2 ∧
    (∀ x ∈ (rlWait 1 10 [0] 5).1, x ≤ (rlWait 1 10 [0] 5).2) ∧
    (inWindow 10 (rlWait 1 10 [0] 5).2 (rlWait 1 10 [0] 5).1).length ≤ 1 :=
  rlWait_spec 1 10 [0] 5 (by decide) (by decide) (by decide)

end ESMarket

namespace ESMarket

/-! ## C5 -/

/-- Numeric reading of the dispatch order `jobBefore`. -/
theorem jobBefore_iff (a b : ScrapeJob) :
    jobBefore a b = true ↔
      (priorityRank b.priority < priorityRank a.priority ∨
        (priorityRank a.priority = priorityRank b.priority ∧
          a.createdAt < b.createdAt)) := by
  simp [jobBefore]

/-- Numeric reading of "does not sort strictly before". -/
theorem jobBefore_false_iff (a b : ScrapeJob) :
    jobBefore a b = false ↔
      (priorityRank a.priority ≤ priorityRank b.priority ∧
        (priorityRank a.priority = priorityRank b.priority →
          b.createdAt ≤ a.createdAt)) := by
  rw [← Bool.not_eq_true, jobBefore_iff]
  omega

/-- `jobBefore` is irreflexive. -/
theorem jobBefore_irrefl (a : ScrapeJob) : jobBefore a a = false := by
  rw [jobBefore_false_iff]
  omega

/-- `jobBefore` is transitive. -/
theorem jobBefore_trans {a b c : ScrapeJob} (h1 : jobBefore a b = true)
    (h2 : jobBefore b c = true) : jobBefore a c = true := by
  rw [jobBefore_iff] at h1 h2 ⊢
  omega

/-- "Does not sort strictly before" is transitive. -/
theorem jobBefore_false_trans {a b c : ScrapeJob} (h1 : jobBefore a b = false)
    (h2 : jobBefore b c = false) : jobBefore a c = false := by
  rw [jobBefore_false_iff] at h1 h2 ⊢
  omega

/-- The selection fold of `findNextPending` never loses its candidate. -/
theorem findNextPending_fold_ne_none :
    ∀ (l : List ScrapeJob) (acc : Option ScrapeJob),
      l.foldl (fun best j => match best with
        | none => some j
        | some b => if jobBefore j b then some j else some b) acc = none →
      l = [] ∧ acc = none := by
  intro l
  induction l with
  | nil => intro acc h; exact ⟨rfl, h⟩
  | cons a l ih =>
    intro acc h
    rw [List.foldl_cons] at h
    have := (ih _ h).2
    cases acc with
    | none => simp at this
    | some b =>
      exfalso
      by_cases hab : jobBefore a b = true <;> simp [hab] at this

/-- The selection fold of `findNextPending` returns an element no other
element (nor the seed) sorts strictly before. -/
theorem findNextPending_fold_spec :
    ∀ (l : List ScrapeJob) (acc : Option ScrapeJob) (c : ScrapeJob),
      l.foldl (fun best j => match best with
        | none => some j
        | some b => if jobBefore j b then some j else some b) acc = some c →
      ((c ∈ l ∨ acc = some c) ∧
        (∀ x ∈ l, jobBefore x c = false) ∧
        (∀ b, acc = some b → jobBefore b c = false)) := by
  intro l
  induction l with
  | nil =>
    intro acc c h
    simp only [List.foldl_nil] at h
    refine ⟨Or.inr h, by simp, ?_⟩
    intro b hb
    rw [h] at hb
    cases hb
    exact jobBefore_irrefl c
  | cons a l ih =>
    intro acc c h
    rw [List.foldl_cons] at h
    cases acc with
    | none =>
      have ih' := ih (some a) c h
      refine ⟨Or.inl ?_, ?_, by simp⟩
      · rcases ih'.1 with hc | hc
        · exact List.mem_cons_of_mem a hc
        · cases hc; exact List.mem_cons_self a l
      · intro x hx
        rcases List.mem_cons.mp hx with hx | hx
        · cases hx; exact ih'.2.2 a rfl
        · exact ih'.2.1 x hx
    | some b0 =>
      by_cases hab : jobBefore a b0 = true
      · rw [show (match some b0 with
            | none => some a
            | some b => if jobBefore a b then some a else some b) = some a by
            simp [hab]] at h
        have ih' := ih (some a) c h
        have hac : jobBefore a c = false := ih'.2.2 a rfl
        refine ⟨Or.inl ?_, ?_, ?_⟩
        · rcases ih'.1 with hc | hc
          · exact List.mem_cons_of_mem a hc
          · cases hc; exact List.mem_cons_self a l
        · intro x hx
          rcases List.mem_cons.mp hx with hx | hx
          · cases hx; exact hac
          · exact ih'.2.1 x hx
        · intro b hb
          cases hb
          cases hbc : jobBefore b0 c with
          | false => rfl
          | true =>
            have := jobBefore_trans hab hbc
            rw [this] at hac
            cases hac
      · rw [show (match some b0 with
            | none => some a
            | some b => if jobBefore a b then some a else some b) = some b0 by
            simp [hab]] at h
        have ih' := ih (some b0) c h
        have hb0c : jobBefore b0 c = false := ih'.2.2 b0 rfl
        refine ⟨?_, ?_, ?_⟩
        · rcases ih'.1 with hc | hc
          · exact Or.inl (List.mem_cons_of_mem a hc)
          · exact Or.inr hc
        · intro x hx
          rcases List.mem_cons.mp hx with hx | hx
          · cases hx
            exact jobBefore_false_trans (by simpa using hab) hb0c
          · exact ih'.2.1 x hx
        · intro b hb
          cases hb
          exact hb0c

/-- `findNextPending` returns a PENDING job that no PENDING job sorts
strictly before. -/
theorem findNextPending_some (jobs : List ScrapeJob) (j : ScrapeJob)
    (h : findNextPending jobs = some j) :
    j ∈ jobs ∧ j.status = .PENDING ∧
      ∀ x ∈ jobs, x.status = .PENDING → jobBefore x j = false := by
  have hs := findNextPending_fold_spec
    (jobs.filter (fun jb => jb.status = .PENDING)) none j h
  have hmem : j ∈ jobs.filter (fun jb => jb.status = .PENDING) := by
    rcases hs.1 with hm | hm
    · exact hm
    · cases hm
  refine ⟨List.mem_of_mem_filter hmem, ?_, ?_⟩
  · have := List.of_mem_filter hmem
    simpa using this
  · intro x hx hpend
    exact hs.2.1 x (List.mem_filter.mpr ⟨hx, by simp [hpend]⟩)

/-- When `findNextPending` finds nothing, no job is PENDING. -/
theorem findNextPending_none (jobs : List ScrapeJob)
    (h : findNextPending jobs = none) :
    ∀ x ∈ jobs, x.status ≠ .PENDING := by
  have := (findNextPending_fold_ne_none
    (jobs.filter (fun jb => jb.status = .PENDING)) none h).1
  intro x hx hpend
  have : x ∈ ([] : List ScrapeJob) := by
    rw [← this]
    exact List.mem_filter.mpr ⟨hx, by simp [hpend]⟩
  simp at this

end ESMarket

namespace ESMarket

/-- C5: each `processQueue` poll — assuming the in-memory `currentJobs`
mirror agrees with the PROCESSING count, as it does on every reaper-free
run — dispatches nothing when the number of PROCESSING jobs is at or above
the cap; otherwise, when some job is PENDING, it dispatches exactly the
PENDING job that is greatest by priority (HIGH > NORMAL > LOW, the
spec-modelled enum order) with ties broken by earliest creation time,
transitions exactly that job to PROCESSING, and takes one slot. -/
theorem processQueue_dispatch_spec (s : QueueState) (now : Nat)
    (hsync : s.currentJobs.length = processingCount s.jobs) :
    (s.maxConcurrentJobs ≤ processingCount s.jobs →
      processQueue s now = (s, none)) ∧
    (processingCount s.jobs < s.maxConcurrentJobs →
      findNextPending s.jobs = none →
      processQueue s now = (s, none) ∧ ∀ x ∈ s.jobs, x.status ≠ .PENDING) ∧
    (∀ j, processingCount s.jobs < s.maxConcurrentJobs →
      findNextPending s.jobs = some j →
      (processQueue s now).2 = some j.id ∧
      j ∈ s.jobs ∧ j.status = .PENDING ∧
      (∀ x ∈ s.jobs, x.status = .PENDING →
        priorityRank x.priority ≤ priorityRank j.priority ∧
        (priorityRank x.priority = priorityRank j.priority →
          j.createdAt ≤ x.createdAt)) ∧
      (processQueue s now).1.jobs = s.jobs.map (fun x =>
        if x.id = j.id then
          { x with status := .PROCESSING, startedAt := some now, updatedAt := now }
        else x) ∧
      (processQueue s now).1.currentJobs = j.id :: s.currentJobs) := by
  refine ⟨?_, ?_, ?_⟩
  · intro hcap
    have hgate : s.maxConcurrentJobs ≤ s.currentJobs.length := by omega
    simp [processQueue, hgate]
  · intro hcap hnone
    have hgate : ¬ s.maxConcurrentJobs ≤ s.currentJobs.length := by omega
    refine ⟨?_, findNextPending_none s.jobs hnone⟩
    simp [processQueue, hgate, hnone]
  · intro j hcap hsome
    have hgate : ¬ s.maxConcurrentJobs ≤ s.currentJobs.length := by omega
    have hj := findNextPending_some s.jobs j hsome
    have hstep : processQueue s now =
        ({ s with
            jobs := s.jobs.map (fun x =>
              if x.id = j.id then
                { x with
                    status := JobStatus.PROCESSING,
                    startedAt := some now,
                    updatedAt := now }
              else x),
            currentJobs := j.id :: s.currentJobs }, some j.id) := by
      simp [processQueue, hgate, hsome]
    rw [hstep]
    refine ⟨rfl, hj.1, hj.2.1, ?_, rfl, rfl⟩
    intro x hx hpend
    have := hj.2.2 x hx hpend
    rw [jobBefore_false_iff] at this
    omega

/-- Witness for C5: the spec's end-to-end scenario.  Three jobs are
submitted with priorities [LOW, HIGH, NORMAL] in that creation order under
cap 1; the theorem dispatches the HIGH job (id 2) first, and — completing
each job before the next poll — the full dispatch order is
HIGH (2), NORMAL (3), LOW (1). -/
theorem processQueue_dispatch_witness :
    (processQueue demoQueue 10).2 = some demoJobHigh.id ∧
    (processQueue (completeJob (processQueue demoQueue 10).1 2 true 11) 12).2
      = some 3 ∧
    (processQueue (completeJob
      (processQueue (completeJob (processQueue demoQueue 10).1 2 true 11) 12).1
      3 true 13) 14).2 = some 1 :=
  ⟨((processQueue_dispatch_spec demoQueue 10 (by decide)).2.2 demoJobHigh
      (by decide) (by decide)).1,
   by decide, by decide⟩

end ESMarket

namespace ESMarket

/-! ## Hash sanity checks -/

set_option maxRecDepth 100000 in
/-- The embedded SHA-256 reproduces the FIPS 180-4 digest of "abc". -/
theorem sha256_fips_vector :
    bytesToHex (sha256bytes (strBytes "abc")) =
      "ba7816bf8f01cfea414140de5dae2223b00361a396177a9cb410ff61f20015ad" := by
  decide

set_option maxRecDepth 100000 in
/-- The embedded HMAC-SHA256 reproduces RFC 4231 test case 2. -/
theorem hmacSha256_rfc4231_vector :
    bytesToHex (hmacSha256 (strBytes "Jefe")
      (strBytes "what do ya want for nothing?")) =
      "5bdcc146bf60754e6a042426089575c75a003f089d2739839dec58b964ec3843" := by
  decide

end ESMarket

namespace ESMarket

/-- Concrete breaker run (threshold 2, timeout 10): the two failures open
the breaker; a call at t = 5 is rejected without consulting the operation
(same result for either operation outcome); a successful trial at t = 12
closes it with the counter at zero. -/
theorem circuitBreaker_concrete_run :
    (cbExecute 2 10 ⟨2, 1, .opened⟩ 5 true = (⟨2, 1, .opened⟩, .rejected)) ∧
    (cbExecute 2 10 ⟨2, 1, .opened⟩ 5 false = (⟨2, 1, .opened⟩, .rejected)) ∧
    (cbExecute 2 10 ⟨2, 1, .opened⟩ 12 true = (⟨0, 1, .closed⟩, .succeeded)) := by
  decide

end ESMarket
